import Mathlib

/-!
Shallow embedding of `main.py` of the lecture-notes backend.

Strings are modelled as `List Char` (Python `str` is a sequence of code
points), byte blobs as `List Nat` (each element a byte value).  Fallible
code returns `Except HTTPErr`.  The third-party collaborators (pypdf,
python-docx, python-pptx, the OpenAI client, the document serializers)
are opaque: they enter the model as parameters.  Everything else is
translated line by line from the source.
-/

namespace LectureNotes

/-- Converts a Lean string literal to the `List Char` representation used
throughout the embedding. -/
def str (s : String) : List Char := s.data

/-- An HTTP error as raised by `HTTPException(status_code=..., detail=...)`. -/
structure HTTPErr where
  status : Nat
  detail : List Char
deriving DecidableEq, Repr

/-- Models Python `str.isspace` membership for the ASCII whitespace
characters that `str.strip()` / `str.lstrip()` / `re` class `\s` remove
(space, tab, newline, carriage return, vertical tab, form feed).  The
inputs relevant to this development are ASCII. -/
def pyIsSpace (c : Char) : Bool :=
  c = ' ' || c = '\t' || c = '\n' || c = '\r' || c = '\x0b' || c = '\x0c'

/-- Python `s.lstrip()` (no argument): drop leading whitespace. -/
def lstripWs (s : List Char) : List Char := s.dropWhile pyIsSpace

/-- Python `s.rstrip()` (no argument): drop trailing whitespace. -/
def rstripWs (s : List Char) : List Char := (s.reverse.dropWhile pyIsSpace).reverse

/-- Python `s.strip()` (no argument): drop whitespace on both sides. -/
def stripWs (s : List Char) : List Char := lstripWs (rstripWs s)

/-- Python `s.lstrip("#")`: drop leading `#` characters. -/
def lstripHash (s : List Char) : List Char := s.dropWhile (fun c => c = '#')

/-- Python `s.startswith(p)`. -/
def startswith (p s : List Char) : Bool := p.isPrefixOf s

/-- Python `s.endswith(p)`. -/
def endswith (p s : List Char) : Bool := p.isSuffixOf s

/-- Python `s.lower()`; the filenames handled here are ASCII, where
`Char.toLower` agrees with Python. -/
def pyLower (s : List Char) : List Char := s.map Char.toLower

/-- Python `str.splitlines()` restricted to the separators `\n`, `\r\n`
and `\r` (the only line boundaries occurring in this pipeline's data). -/
def splitlinesAux : List Char → List Char → List (List Char)
  | [], acc => if acc.isEmpty then [] else [acc.reverse]
  | '\r' :: '\n' :: rest, acc => acc.reverse :: splitlinesAux rest []
  | '\r' :: rest, acc => acc.reverse :: splitlinesAux rest []
  | '\n' :: rest, acc => acc.reverse :: splitlinesAux rest []
  | c :: rest, acc => splitlinesAux rest (c :: acc)

/-- Python `s.splitlines()`. -/
def splitlines (s : List Char) : List (List Char) := splitlinesAux s []

/-- Python `sep.join(xs)`. -/
def joinWith (sep : List Char) (xs : List (List Char)) : List Char :=
  (List.intersperse sep xs).flatten

/-- Decimal digits of a natural number, for the f-string interpolation of
configured limits into error messages. -/
def natStr (n : Nat) : List Char := Nat.toDigits 10 n

/-- Whether `re.match(r"^\d+\.\s+", s)` succeeds: one or more digits, a
dot, then at least one whitespace character.  Greedy maximal-munch of the
digit run is equivalent to the regex: backtracking to a shorter digit run
leaves a digit where the dot is required. -/
def matches_numbered (s : List Char) : Bool :=
  !(s.takeWhile Char.isDigit).isEmpty &&
    match s.dropWhile Char.isDigit with
    | '.' :: r => !(r.takeWhile pyIsSpace).isEmpty
    | _ => false

/-- Models `re.sub(r"^\d+\.\s+", "", s)` on a string where the pattern matches:
removes the digit run, the dot, and the following whitespace run. -/
def strip_numbered (s : List Char) : List Char :=
  match s.dropWhile Char.isDigit with
  | '.' :: r => r.dropWhile pyIsSpace
  | _ => s

/-- Characters kept verbatim by `_safe_filename`'s character class
`[a-zA-Z0-9._-]`. -/
def safeChar (c : Char) : Bool := c.isAlphanum || c = '.' || c = '_' || c = '-'

/-- Models `re.sub(r"[^a-zA-Z0-9._-]+", "_", name)`: each maximal run of
disallowed characters becomes a single underscore.  The `fuel` argument
only makes the recursion structural (so that the kernel can evaluate
it); `squashUnsafe` passes the list length, which is always enough. -/
def squashUnsafeFuel : Nat → List Char → List Char
  | _, [] => []
  | 0, l => l
  | fuel + 1, c :: rest =>
    if safeChar c then c :: squashUnsafeFuel fuel rest
    else '_' :: squashUnsafeFuel fuel (rest.dropWhile (fun x => !safeChar x))

/-- See `squashUnsafeFuel`. -/
def squashUnsafe (l : List Char) : List Char := squashUnsafeFuel l.length l

/-- The function `_safe_filename` from the source: default empty names to "file",
replace unsafe runs, truncate to 120 characters. -/
def _safe_filename (name : List Char) : List Char :=
  let name := if name.isEmpty then str "file" else name
  (squashUnsafe name).take 120

/-- Models CPython's `bytes.decode("utf-8", errors="ignore")`: standard
incremental UTF-8 decoding, dropping invalid bytes.  The claims exercise
it on valid (ASCII) input only.  The `fuel` argument only makes the
recursion structural (so that the kernel can evaluate it); `utf8decode`
passes the byte count, which is always enough since every step consumes
at least one byte. -/
def utf8decodeFuel : Nat → List Nat → List Char
  | _, [] => []
  | 0, _ => []
  | fuel + 1, b1 :: rest =>
    if b1 < 0x80 then Char.ofNat b1 :: utf8decodeFuel fuel rest
    else if b1 < 0xC2 then utf8decodeFuel fuel rest
    else if b1 < 0xE0 then
      match rest with
      | [] => []
      | b2 :: rest2 =>
        if 0x80 ≤ b2 && b2 < 0xC0 then
          Char.ofNat ((b1 - 0xC0) * 0x40 + (b2 - 0x80)) :: utf8decodeFuel fuel rest2
        else utf8decodeFuel fuel rest
    else if b1 < 0xF0 then
      match rest with
      | b2 :: b3 :: rest3 =>
        if (if b1 = 0xE0 then 0xA0 ≤ b2 && b2 < 0xC0
            else if b1 = 0xED then 0x80 ≤ b2 && b2 < 0xA0
            else 0x80 ≤ b2 && b2 < 0xC0) && (0x80 ≤ b3 && b3 < 0xC0) then
          Char.ofNat ((b1 - 0xE0) * 0x1000 + (b2 - 0x80) * 0x40 + (b3 - 0x80)) :: utf8decodeFuel fuel rest3
        else utf8decodeFuel fuel rest
      | _ => []
    else if b1 < 0xF5 then
      match rest with
      | b2 :: b3 :: b4 :: rest4 =>
        if (if b1 = 0xF0 then 0x90 ≤ b2 && b2 < 0xC0
            else if b1 = 0xF4 then 0x80 ≤ b2 && b2 < 0x90
            else 0x80 ≤ b2 && b2 < 0xC0) && (0x80 ≤ b3 && b3 < 0xC0) && (0x80 ≤ b4 && b4 < 0xC0) then
          Char.ofNat ((b1 - 0xF0) * 0x40000 + (b2 - 0x80) * 0x1000 + (b3 - 0x80) * 0x40 + (b4 - 0x80)) :: utf8decodeFuel fuel rest4
        else utf8decodeFuel fuel rest
      | _ => []
    else utf8decodeFuel fuel rest

/-- See `utf8decodeFuel`. -/
def utf8decode (data : List Nat) : List Char := utf8decodeFuel data.length data

/-! ## The word-processor (DOCX) renderer, `markdown_to_docx` -/

/-- One item added to the python-docx `Document` by `markdown_to_docx`:
`add_heading(text, level)`, `add_paragraph(text, style="List Bullet")`,
`add_paragraph(text, style="List Number")`, or a plain `add_paragraph`. -/
inductive DocxItem where
  | heading (level : Nat) (text : List Char)
  | listBullet (text : List Char)
  | listNumber (text : List Char)
  | paragraph (text : List Char)
deriving DecidableEq, Repr

/-- The per-line body of the loop in `markdown_to_docx`: `rstrip` the raw
line, skip it when blank, else classify it by the source's chain of
prefix checks.  `none` means the `continue` on a blank line. -/
def docx_classify_line (raw : List Char) : Option DocxItem :=
  let line := rstripWs raw
  if (stripWs line).isEmpty then none
  else if startswith (str "### ") line then some (.heading 3 (stripWs (line.drop 4)))
  else if startswith (str "## ") line then some (.heading 2 (stripWs (line.drop 3)))
  else if startswith (str "# ") line then some (.heading 1 (stripWs (line.drop 2)))
  else if startswith (str "-") (lstripWs line) || startswith (str "*") (lstripWs line) then
    some (.listBullet (stripWs ((lstripWs line).drop 1)))
  else if matches_numbered (stripWs line) then
    some (.listNumber (strip_numbered (stripWs line)))
  else some (.paragraph (stripWs line))

/-- The renderer `markdown_to_docx`: the sequence of items added to the document, one
per non-blank line of `md.splitlines()`.  The serialization of the
document to bytes (`doc.save`) is the opaque python-docx library. -/
def markdown_to_docx (md : List Char) : List DocxItem :=
  (splitlines md).filterMap docx_classify_line

/-! ## The paginated (PDF) renderer, `markdown_to_pdf` -/

/-- Lengths are measured in units of 1/127 point, the exact common
denominator of reportlab's metric units (`cm = 72/2.54 = 3600/127`
points), so that every quantity in the source's layout arithmetic is an
integer and the model stays exact.  One point is 127 units. -/
def pt : ℤ := 127

/-- reportlab `inch` unit (72 points). -/
def inch : ℤ := 72 * pt

/-- reportlab `cm` unit, `inch / 2.54` (the division is exact in these
units: 9144 * 100 / 254 = 3600). -/
def cm : ℤ := inch * 100 / 254

/-- reportlab `mm` unit, `cm * 0.1` (exact: 360). -/
def mm : ℤ := cm / 10

/-- reportlab A4 page height, `297 * mm`. -/
def A4_height : ℤ := 297 * mm

/-- The per-line vertical advance `y -= 14` in `draw_line` (14 points). -/
def line_height : ℤ := 14 * pt

/-- One `c.drawString(x, y, ch)` call recorded by the embedding, with
the page it lands on and the font choice in force (`Helvetica-Bold 13`
for headings, `Helvetica 11` otherwise). -/
structure DrawnLine where
  page : Nat
  y : ℤ
  text : List Char
  is_heading : Bool
deriving DecidableEq, Repr

/-- The canvas state threaded through `markdown_to_pdf`: the vertical
cursor `y`, the current page number, and the trace of drawn lines. -/
structure PdfState where
  y : ℤ
  page : Nat
  drawn : List DrawnLine
deriving DecidableEq, Repr

/-- Models `c.showPage()` followed by the cursor reset `y = height - 2 * cm`. -/
def newPage (st : PdfState) : PdfState :=
  { y := A4_height - 2 * cm, page := st.page + 1, drawn := st.drawn }

/-- The overflow guard `if y < 2 * cm: c.showPage(); y = height - 2 * cm`
expressed on the cursor value alone. -/
def pageCheck (y : ℤ) : ℤ :=
  if y < 2 * cm then A4_height - 2 * cm else y

/-- The chunking `[text[i:i + max_chars] for i in range(0, len(text), max_chars)]`
for non-empty `text`, with `max_chars = 95`.  The `fuel` argument only
makes the recursion structural (so that the kernel can evaluate it);
`chunks95` passes the text length, which is always enough since every
step consumes at least one character. -/
def chunksAuxFuel : Nat → List Char → List (List Char)
  | _, [] => []
  | 0, l => [l]
  | fuel + 1, c :: cs => ((c :: cs).take 95) :: chunksAuxFuel fuel ((c :: cs).drop 95)

/-- The expression `chunks = [...] or [""]`: an empty text still yields one empty chunk. -/
def chunks95 (text : List Char) : List (List Char) :=
  match text with
  | [] => [[]]
  | c :: cs => chunksAuxFuel (c :: cs).length (c :: cs)

/-- The body of the `for ch in chunks` loop in `draw_line`: overflow
check, one `drawString`, cursor advance by `line_height`. -/
def drawChunk (is_heading : Bool) (st : PdfState) (ch : List Char) : PdfState :=
  let st1 := if st.y < 2 * cm then newPage st else st
  { y := st1.y - line_height, page := st1.page,
    drawn := st1.drawn ++ [{ page := st1.page, y := st1.y, text := ch, is_heading := is_heading }] }

/-- The nested function `draw_line(text, is_heading)` from `markdown_to_pdf`: the leading
overflow check, the chunk loop, and the trailing `y -= 4`. -/
def draw_line (text : List Char) (is_heading : Bool) (st : PdfState) : PdfState :=
  let st1 := if st.y < 2 * cm then newPage st else st
  let st2 := (chunks95 text).foldl (drawChunk is_heading) st1
  { y := st2.y - 4 * pt, page := st2.page, drawn := st2.drawn }

/-- The per-line body of the loop in `markdown_to_pdf`: `strip` the raw
line, skip it when blank, else dispatch on the source's prefix checks.
Note the heading branch strips every leading `#` with no level
distinction, and the numbered branch draws the line unchanged. -/
def pdf_render_line (st : PdfState) (raw : List Char) : PdfState :=
  let line := stripWs raw
  if line.isEmpty then st
  else if startswith (str "#") line then
    draw_line (stripWs (lstripHash line)) true st
  else if startswith (str "-") line || startswith (str "*") line then
    draw_line (str "• " ++ stripWs (line.drop 1)) false st
  else if matches_numbered line then
    draw_line line false st
  else
    draw_line line false st

/-- The canvas as created by `canvas.Canvas(buf, pagesize=A4)` with the
initial cursor `y = height - 2 * cm` on page 1. -/
def initPdfState : PdfState :=
  { y := A4_height - 2 * cm, page := 1, drawn := [] }

/-- The renderer `markdown_to_pdf`: fold the line renderer over `md.splitlines()`.
The byte serialization (`c.save()`) is the opaque reportlab library. -/
def markdown_to_pdf (md : List Char) : PdfState :=
  (splitlines md).foldl pdf_render_line initPdfState

/-! ## The packager, `build_zip` -/

/-- The compression method passed to `zipfile.ZipFile`. -/
inductive ZipMethod where
  | deflated
  | stored
deriving DecidableEq, Repr

/-- One `z.writestr(name, data)` entry of the archive. -/
structure ZipEntry where
  name : List Char
  content : List Nat
  method : ZipMethod
deriving DecidableEq, Repr

/-- The packager `build_zip`: a fresh archive with the two fixed-name entries written
with `zipfile.ZIP_DEFLATED`. -/
def build_zip (docx_bytes pdf_bytes : List Nat) : List ZipEntry :=
  [{ name := str "notes.docx", content := docx_bytes, method := .deflated },
   { name := str "notes.pdf", content := pdf_bytes, method := .deflated }]

/-! ## Extraction and the request pipeline -/

/-- The opaque third-party extraction collaborators wrapped by
`extract_text_from_pdf`, `extract_text_from_docx` and
`extract_text_from_pptx` (including their missing-capability 500
errors), as abstract functions from bytes to text or an HTTP error. -/
structure ExtractEnv where
  pdfExtract : List Nat → Except HTTPErr (List Char)
  docxExtract : List Nat → Except HTTPErr (List Char)
  pptxExtract : List Nat → Except HTTPErr (List Char)

/-- The dispatcher `extract_text(filename, data)`: lowercase the name, dispatch on the
suffix, and fail with a 400 naming the file for unknown suffixes.  The
`.txt`/`.md` branch decodes as UTF-8 ignoring bad bytes and strips. -/
def extract_text (env : ExtractEnv) (filename : List Char) (data : List Nat) :
    Except HTTPErr (List Char) :=
  let fn := pyLower filename
  if endswith (str ".pdf") fn then env.pdfExtract data
  else if endswith (str ".docx") fn then env.docxExtract data
  else if endswith (str ".pptx") fn then env.pptxExtract data
  else if endswith (str ".txt") fn || endswith (str ".md") fn then
    .ok (stripWs (utf8decode data))
  else .error { status := 400, detail := str "Unsupported file type: " ++ filename }

/-- Whether `extract_text` recognizes the suffix of `fn` (after
lowercasing), i.e. does not raise the unsupported-type error. -/
def supported_suffix (fn : List Char) : Bool :=
  let l := pyLower fn
  endswith (str ".pdf") l || endswith (str ".docx") l || endswith (str ".pptx") l ||
    endswith (str ".txt") l || endswith (str ".md") l

/-- The literal placeholder substituted for an empty extraction result. -/
def placeholder : List Char := str "No extractable text found."

/-- One block of the extraction loop in `make_notes`:
`text = extract_text(...)`, the placeholder substitution, and the
f-string label `=== File: {fname} ===\n{text}`. -/
def extracted_block (env : ExtractEnv) (fname : List Char) (data : List Nat) :
    Except HTTPErr (List Char) :=
  (extract_text env fname data).map (fun text =>
    let text := if text.isEmpty then placeholder else text
    str "=== File: " ++ fname ++ str " ===\n" ++ text)

/-- The value the loop computes for `block_of` a file when its extraction
succeeds (used to state theorems; `extracted_block` is the source-side
computation). -/
def block_of (env : ExtractEnv) (fb : List Char × List Nat) : List Char :=
  let text := ((extract_text env fb.1 fb.2).toOption.getD [])
  let text := if text.isEmpty then placeholder else text
  str "=== File: " ++ fb.1 ++ str " ===\n" ++ text

/-- The extraction stage of `make_notes`: one labeled block per file, in
order, joined by blank lines into the SourceBundle text. -/
def source_bundle (env : ExtractEnv) (files_bytes : List (List Char × List Nat)) :
    Except HTTPErr (List Char) :=
  (files_bytes.mapM (fun fb => extracted_block env fb.1 fb.2)).map
    (fun blocks => joinWith (str "\n\n") blocks)

/-- The summarizer `call_ai_make_notes`, with the external completion service's reply
(`resp.choices[0].message.content`, possibly `None`) as a parameter: the
missing-credential 500, the `or ""` default, the `strip()`, and the
empty-notes 500. -/
def call_ai_make_notes (api_key_set : Bool) (serviceResponse : Option (List Char)) :
    Except HTTPErr (List Char) :=
  if !api_key_set then .error { status := 500, detail := str "OPENAI_API_KEY not set" }
  else
    let out := stripWs (serviceResponse.getD [])
    if out.isEmpty then .error { status := 500, detail := str "AI returned empty notes" }
    else .ok out

/-- The environment-derived configuration constants of the module. -/
structure Config where
  maxFiles : Nat
  maxMBPerFile : Nat
  maxTotalMB : Nat
  api_key_set : Bool
  sharedSecret : List Char
deriving DecidableEq, Repr

/-- One uploaded file: its `filename` as sent and its raw bytes. -/
structure Upload where
  filename : List Char
  data : List Nat
deriving DecidableEq, Repr

/-- The guard `_require_secret`: a no-op when no shared secret is configured, else
compare the `X-Backend-Secret` header (missing headers read as "") and
reject with 401 on mismatch. -/
def _require_secret (sharedSecret : List Char) (header : Option (List Char)) :
    Except HTTPErr Unit :=
  if sharedSecret.isEmpty then .ok ()
  else if (header.getD []) = sharedSecret then .ok ()
  else .error { status := 401, detail := str "Unauthorized" }

/-- The reader `_read_uploadfile`: return the file's bytes, rejecting with a 413
naming the file (via its original filename) when it exceeds the per-file
limit. -/
def _read_uploadfile (maxMBPerFile : Nat) (u : Upload) : Except HTTPErr (List Nat) :=
  if u.data.length > maxMBPerFile * 1024 * 1024 then
    .error { status := 413,
             detail := u.filename ++ str " too large (> " ++ natStr maxMBPerFile ++ str "MB)" }
  else .ok u.data

/-- The check `_bytes_limit_check`: reject with a 413 when the total byte count
exceeds the aggregate limit. -/
def _bytes_limit_check (maxTotalMB : Nat) (files_bytes : List (List Char × List Nat)) :
    Except HTTPErr Unit :=
  if (files_bytes.map (fun fb => fb.2.length)).sum > maxTotalMB * 1024 * 1024 then
    .error { status := 413,
             detail := str "Total upload too large (> " ++ natStr maxTotalMB ++ str "MB)" }
  else .ok ()

/-- The read loop of `make_notes`: per file, sanitize the name and read
the bytes with the per-file size check, in upload order. -/
def read_files (maxMBPerFile : Nat) (files : List Upload) :
    Except HTTPErr (List (List Char × List Nat)) :=
  files.mapM (fun f =>
    (_read_uploadfile maxMBPerFile f).map (fun data => (_safe_filename f.filename, data)))

/-- The successful result of `make_notes` before serialization and
zipping: the SourceBundle text, the NotesDocument markdown, and the two
rendered documents (their byte forms and the archive are produced by the
opaque serializers and `build_zip`). -/
structure Output where
  source_text : List Char
  notes_md : List Char
  docx : List DocxItem
  pdf : PdfState
deriving DecidableEq, Repr

/-- Decidable equality for `Except` results, so that witnesses can be
checked by evaluation. -/
instance {ε α : Type} [DecidableEq ε] [DecidableEq α] : DecidableEq (Except ε α) := by
  intro a b
  cases a <;> cases b
  case error.error x y =>
    exact if h : x = y then .isTrue (by rw [h]) else .isFalse (by intro hc; cases hc; exact h rfl)
  case ok.ok x y =>
    exact if h : x = y then .isTrue (by rw [h]) else .isFalse (by intro hc; cases hc; exact h rfl)
  case error.ok x y => exact .isFalse (by intro hc; cases hc)
  case ok.error x y => exact .isFalse (by intro hc; cases hc)

/-- The `/make-notes` handler, with the request's header value, the
uploaded files, and the completion service's reply as inputs.  The
second component records whether the completion-service call point was
reached. -/
def make_notes (cfg : Config) (header : Option (List Char)) (env : ExtractEnv)
    (files : List Upload) (serviceResponse : Option (List Char)) :
    Except HTTPErr Output × Bool :=
  match _require_secret cfg.sharedSecret header with
  | .error e => (.error e, false)
  | .ok _ =>
    if files.isEmpty then
      (.error { status := 400, detail := str "No files uploaded" }, false)
    else if files.length > cfg.maxFiles then
      (.error { status := 400,
                detail := str "Too many files (max " ++ natStr cfg.maxFiles ++ str ")" }, false)
    else
      match read_files cfg.maxMBPerFile files with
      | .error e => (.error e, false)
      | .ok files_bytes =>
        match _bytes_limit_check cfg.maxTotalMB files_bytes with
        | .error e => (.error e, false)
        | .ok _ =>
          match source_bundle env files_bytes with
          | .error e => (.error e, false)
          | .ok source_text =>
            match call_ai_make_notes cfg.api_key_set serviceResponse with
            | .error e => (.error e, true)
            | .ok notes_md =>
              (.ok { source_text := source_text, notes_md := notes_md,
                     docx := markdown_to_docx notes_md, pdf := markdown_to_pdf notes_md }, true)

/-- A concrete extraction environment (each opaque extractor returns a
fixed text), used to instantiate theorems at concrete inputs. -/
def envOk : ExtractEnv :=
  { pdfExtract := fun _ => .ok (str "pdftext"),
    docxExtract := fun _ => .ok (str "docxtext"),
    pptxExtract := fun _ => .ok (str "pptxtext") }

/-! ## Helper lemmas about the string primitives -/

theorem dropWhile_self_idem (p : Char → Bool) (l : List Char) :
    List.dropWhile p (List.dropWhile p l) = List.dropWhile p l := by
  cases h : List.dropWhile p l with
  | nil => rfl
  | cons c t =>
    have hc : p c = false := by
      have h0 := List.head?_dropWhile_not p l
      rw [h] at h0
      simpa using h0
    simp [List.dropWhile_cons, hc]

theorem rstripWs_idem (s : List Char) : rstripWs (rstripWs s) = rstripWs s := by
  unfold rstripWs
  rw [List.reverse_reverse, dropWhile_self_idem]

theorem stripWs_rstripWs (s : List Char) : stripWs (rstripWs s) = stripWs s := by
  unfold stripWs
  rw [rstripWs_idem]

/-- Python `rstrip` keeps some (possibly empty) whitespace margin in front of
the fully stripped string. -/
theorem rstripWs_eq_ws_append (s : List Char) :
    ∃ w, rstripWs s = w ++ stripWs s ∧ ∀ c ∈ w, pyIsSpace c = true := by
  refine ⟨(rstripWs s).takeWhile pyIsSpace, ?_, ?_⟩
  · conv_lhs => rw [← List.takeWhile_append_dropWhile (p := pyIsSpace) (l := rstripWs s)]
    rfl
  · intro c hc
    exact List.mem_takeWhile_imp hc

theorem startswith_iff {p s : List Char} : startswith p s = true ↔ ∃ t, s = p ++ t := by
  unfold startswith
  rw [ List.isPrefixOf_iff_prefix]
  exact ⟨fun ⟨t, ht⟩ => ⟨t, ht.symm⟩, fun ⟨t, ht⟩ => ⟨t, ht.symm⟩⟩

theorem endswith_iff {p s : List Char} : endswith p s = true ↔ p <:+ s := by
  unfold endswith
  rw [List.isSuffixOf_iff_suffix]

/-- A prefix check whose pattern starts with a non-whitespace character
that cannot start the stripped line also fails on the rstripped line. -/
theorem not_startswith_rstrip {raw : List Char} {a : Char} {p : List Char}
    (ha : pyIsSpace a = false) (hhead : ∀ t, stripWs raw ≠ a :: t) :
    startswith (a :: p) (rstripWs raw) = false := by
  by_contra hcon
  rw [Bool.not_eq_false, startswith_iff] at hcon
  obtain ⟨t, ht⟩ := hcon
  obtain ⟨w, hw, hws⟩ := rstripWs_eq_ws_append raw
  rw [hw] at ht
  cases w with
  | nil =>
    exact hhead (p ++ t) (by simpa using ht)
  | cons c w2 =>
    have hc : c = a := by
      have := congrArg (fun l => l.head?) ht
      simpa using this
    have := hws c (by simp)
    rw [hc, ha] at this
    cases this

theorem chunksAuxFuel_flatten :
    ∀ (fuel : Nat) (s : List Char), s.length ≤ fuel → (chunksAuxFuel fuel s).flatten = s := by
  intro fuel
  induction fuel with
  | zero =>
    intro s hs
    cases s with
    | nil => rfl
    | cons c cs => simp at hs
  | succ n ih =>
    intro s hs
    cases s with
    | nil => rfl
    | cons c cs =>
      simp only [chunksAuxFuel, List.flatten_cons]
      rw [ih]
      · exact List.take_append_drop 95 (c :: cs)
      · simp only [List.length_drop, List.length_cons]
        simp only [List.length_cons] at hs
        omega

theorem chunksAuxFuel_le :
    ∀ (fuel : Nat) (s : List Char), s.length ≤ fuel →
      ∀ c ∈ chunksAuxFuel fuel s, c.length ≤ 95 := by
  intro fuel
  induction fuel with
  | zero =>
    intro s hs c hc
    cases s with
    | nil => simp [chunksAuxFuel] at hc
    | cons x xs => simp at hs
  | succ n ih =>
    intro s hs c hc
    cases s with
    | nil => simp [chunksAuxFuel] at hc
    | cons x xs =>
      simp only [chunksAuxFuel, List.mem_cons] at hc
      rcases hc with hc | hc
      · rw [hc]
        exact List.length_take_le 95 (x :: xs)
      · refine ih _ ?_ c hc
        simp only [List.length_drop, List.length_cons]
        simp only [List.length_cons] at hs
        omega

theorem chunks95_flatten (s : List Char) : (chunks95 s).flatten = s := by
  cases s with
  | nil => rfl
  | cons c cs => exact chunksAuxFuel_flatten _ _ le_rfl

theorem chunks95_le (s : List Char) : ∀ c ∈ chunks95 s, c.length ≤ 95 := by
  cases s with
  | nil =>
    intro c hc
    simp [chunks95] at hc
    simp [hc]
  | cons x xs => exact chunksAuxFuel_le _ _ le_rfl

theorem chunks95_ne_nil (s : List Char) : chunks95 s ≠ [] := by
  cases s with
  | nil => simp [chunks95]
  | cons x xs => simp [chunks95, chunksAuxFuel]

/-! ## The page-overflow machinery of `draw_line` -/

theorem pageCheck_ge (y : ℤ) : 2 * cm ≤ pageCheck y := by
  unfold pageCheck
  split
  · decide
  · omega

theorem pageCheck_idem (y : ℤ) : pageCheck (pageCheck y) = pageCheck y := by
  by_cases h : y < 2 * cm
  · simp only [pageCheck, if_pos h]
    have h2 : ¬ (A4_height - 2 * cm < 2 * cm) := by decide
    simp [h2]
  · simp [pageCheck, h]

theorem drawChunk_drawn (b : Bool) (st : PdfState) (ch : List Char) :
    ∃ pg, drawChunk b st ch =
      { y := pageCheck st.y - line_height, page := pg,
        drawn := st.drawn ++
          [{ page := pg, y := pageCheck st.y, text := ch, is_heading := b }] } := by
  by_cases h : st.y < 2 * cm
  · exact ⟨st.page + 1, by simp [drawChunk, newPage, pageCheck, h]⟩
  · exact ⟨st.page, by simp [drawChunk, newPage, pageCheck, h]⟩

/-- What the chunk loop of `draw_line` does: appends one drawn line per
chunk, every drawn line lands at or above the bottom margin, the first
one at the overflow-checked entry cursor, and each following one at the
overflow-checked position one `line_height` below its predecessor. -/
theorem foldl_drawChunk_spec (b : Bool) :
    ∀ (cs : List (List Char)) (st : PdfState),
      ∃ D, ((cs.foldl (drawChunk b) st).drawn = st.drawn ++ D)
        ∧ D.map DrawnLine.text = cs
        ∧ (∀ d ∈ D, d.is_heading = b)
        ∧ (∀ d ∈ D, 2 * cm ≤ d.y)
        ∧ (D.head?.map DrawnLine.y = cs.head?.map (fun _ => pageCheck st.y))
        ∧ List.Chain' (fun d1 d2 => d2.y = pageCheck (d1.y - line_height)) D
        ∧ ((cs.foldl (drawChunk b) st).y = (match D.getLast? with
              | none => st.y
              | some d => d.y - line_height)) := by
  intro cs
  induction cs with
  | nil =>
    intro st
    exact ⟨[], by simp, by simp, by simp, by simp, by simp, by simp, by simp⟩
  | cons c cs ih =>
    intro st
    obtain ⟨pg, hst1⟩ := drawChunk_drawn b st c
    obtain ⟨D2, h1, h2, h3, h4, h5, h6, h7⟩ := ih (drawChunk b st c)
    refine ⟨{ page := pg, y := pageCheck st.y, text := c, is_heading := b } :: D2,
      ?_, ?_, ?_, ?_, ?_, ?_, ?_⟩
    · rw [List.foldl_cons, h1, hst1]
      simp
    · simp [h2]
    · intro d hd
      rcases List.mem_cons.mp hd with hd | hd
      · rw [hd]
      · exact h3 d hd
    · intro d hd
      rcases List.mem_cons.mp hd with hd | hd
      · rw [hd]; exact pageCheck_ge st.y
      · exact h4 d hd
    · simp
    · rw [List.chain'_cons']
      refine ⟨?_, h6⟩
      intro d2 hd2
      cases hD2 : D2.head? with
      | none => rw [hD2] at hd2; cases hd2
      | some d0 =>
        rw [hD2] at hd2
        cases hd2
        cases cs with
        | nil =>
          have : D2 = [] := by
            cases D2 with
            | nil => rfl
            | cons a as => simp at h2
          rw [this] at hD2
          cases hD2
        | cons c2 cs2 =>
          rw [hD2] at h5
          simp only [List.head?_cons, Option.map_some] at h5
          have hy : d2.y = pageCheck (drawChunk b st c).y := by
            injection h5 with h5'
          rw [hy, hst1]
    · rw [List.foldl_cons, h7]
      cases hD2 : D2.getLast? with
      | none =>
        have : D2 = [] := List.getLast?_eq_none_iff.mp hD2
        subst this
        simp only [List.getLast?_singleton]
        rw [hst1]
      | some d =>
        cases D2 with
        | nil => cases hD2
        | cons a as =>
          rw [List.getLast?_cons_cons, hD2]

/-- C9: in the paginated rendering, `draw_line` splits each rendered
line's text into consecutive chunks of at most 95 characters whose
concatenation equals the original text, emits exactly one drawn line per
chunk with the vertical cursor advanced per chunk (each drawn chunk sits
one `line_height` below its predecessor, after the overflow check), and
the page-overflow check is performed before every chunk: the first chunk
is drawn at the overflow-checked entry cursor, every later chunk at the
overflow-checked advanced cursor, so every drawn chunk sits at or above
the fixed 2 cm bottom margin. -/
theorem draw_line_spec (text : List Char) (b : Bool) (st : PdfState) :
    (∀ c ∈ chunks95 text, c.length ≤ 95)
    ∧ (chunks95 text).flatten = text
    ∧ ∃ D, ((draw_line text b st).drawn = st.drawn ++ D)
        ∧ D.map DrawnLine.text = chunks95 text
        ∧ (∀ d ∈ D, 2 * cm ≤ d.y)
        ∧ (D.head?.map DrawnLine.y = some (pageCheck st.y))
        ∧ List.Chain' (fun d1 d2 => d2.y = pageCheck (d1.y - line_height)) D := by
  refine ⟨chunks95_le text, chunks95_flatten text, ?_⟩
  unfold draw_line
  have hy1 : (if st.y < 2 * cm then newPage st else st).y = pageCheck st.y := by
    unfold newPage pageCheck
    split <;> rfl
  have hd1 : (if st.y < 2 * cm then newPage st else st).drawn = st.drawn := by
    unfold newPage
    split <;> rfl
  obtain ⟨D, h1, h2, h3, h4, h5, h6, h7⟩ :=
    foldl_drawChunk_spec b (chunks95 text) (if st.y < 2 * cm then newPage st else st)
  refine ⟨D, ?_, h2, h4, ?_, h6⟩
  · simpa [hd1] using h1
  · cases hc : chunks95 text with
    | nil => exact absurd hc (chunks95_ne_nil text)
    | cons z zs =>
      rw [hc] at h5
      simp only [List.head?_cons, Option.map_some] at h5
      rw [h5, hy1, pageCheck_idem]
      simp

/-! ## Line-classification lemmas shared by the renderer claims -/

theorem startswith_cons_ne {a c : Char} {p s : List Char} (h : a ≠ c) :
    startswith (a :: p) (c :: s) = false := by
  by_contra hcon
  rw [Bool.not_eq_false, startswith_iff] at hcon
  obtain ⟨t, ht⟩ := hcon
  injection ht with h1 h2
  exact h h1.symm

/-- The classifier `docx_classify_line` with the double `rstrip` collapsed, so every
branch is phrased in terms of `rstripWs raw` and `stripWs raw`. -/
theorem docx_classify_line_eq (raw : List Char) : docx_classify_line raw =
    (if (stripWs raw).isEmpty then none
     else if startswith (str "### ") (rstripWs raw) then
       some (.heading 3 (stripWs ((rstripWs raw).drop 4)))
     else if startswith (str "## ") (rstripWs raw) then
       some (.heading 2 (stripWs ((rstripWs raw).drop 3)))
     else if startswith (str "# ") (rstripWs raw) then
       some (.heading 1 (stripWs ((rstripWs raw).drop 2)))
     else if startswith (str "-") (stripWs raw) || startswith (str "*") (stripWs raw) then
       some (.listBullet (stripWs ((stripWs raw).drop 1)))
     else if matches_numbered (stripWs raw) then
       some (.listNumber (strip_numbered (stripWs raw)))
     else some (.paragraph (stripWs raw))) := by
  unfold docx_classify_line
  simp only [stripWs_rstripWs]
  rfl

theorem matches_numbered_head {s : List Char} (h : matches_numbered s = true) :
    ∃ d t, s = d :: t ∧ d.isDigit = true := by
  cases hs : s with
  | nil =>
    rw [hs] at h
    simp [matches_numbered] at h
  | cons d t =>
    refine ⟨d, t, rfl, ?_⟩
    by_contra hd
    rw [Bool.not_eq_true] at hd
    rw [hs] at h
    simp [matches_numbered, List.takeWhile_cons, hd] at h

/-- C9 witness: the wrap/overflow theorem instantiated at a concrete
line and the initial canvas state. -/
theorem draw_line_spec_witness : (chunks95 (str "hello")).flatten = str "hello" :=
  (draw_line_spec (str "hello") false initPdfState).2.1

/-- C1: rendering the markdown string
"## Title\n- item one\n1. step one\nplain line" into the word-processor
document yields, in order: a level-2 heading "Title", a bulleted list
item "item one", a numbered list item "step one", and a plain paragraph
"plain line". -/
theorem markdown_roundtrip_docx :
    markdown_to_docx (str "## Title\n- item one\n1. step one\nplain line") =
      [.heading 2 (str "Title"), .listBullet (str "item one"),
       .listNumber (str "step one"), .paragraph (str "plain line")] := by
  decide

/-- C4: `build_zip` always produces exactly the two fixed-name entries
`notes.docx` and `notes.pdf`, both deflate-compressed, with the given
contents; when the two serialized documents are non-empty (as the opaque
document writers guarantee for any successful request), both entries are
non-empty. -/
theorem build_zip_layout (docx_bytes pdf_bytes : List Nat)
    (hd : docx_bytes ≠ []) (hp : pdf_bytes ≠ []) :
    (build_zip docx_bytes pdf_bytes).length = 2
    ∧ (build_zip docx_bytes pdf_bytes).map ZipEntry.name = [str "notes.docx", str "notes.pdf"]
    ∧ (build_zip docx_bytes pdf_bytes).map ZipEntry.content = [docx_bytes, pdf_bytes]
    ∧ (∀ e ∈ build_zip docx_bytes pdf_bytes, e.method = .deflated ∧ e.content ≠ []) := by
  refine ⟨rfl, rfl, rfl, ?_⟩
  intro e he
  simp only [build_zip, List.mem_cons, List.not_mem_nil, or_false] at he
  rcases he with h | h <;> subst h
  · exact ⟨rfl, hd⟩
  · exact ⟨rfl, hp⟩

/-- C4 witness: the archive layout at concrete one-byte documents. -/
theorem build_zip_layout_witness :
    (build_zip [1] [2]).length = 2
    ∧ (build_zip [1] [2]).map ZipEntry.name = [str "notes.docx", str "notes.pdf"]
    ∧ (build_zip [1] [2]).map ZipEntry.content = [[1], [2]]
    ∧ (∀ e ∈ build_zip [1] [2], e.method = .deflated ∧ e.content ≠ []) :=
  build_zip_layout [1] [2] (by decide) (by decide)

/-- C2 counterexample: on the line "1. step one" the paginated rendering
draws the line with the numbered marker still present, not the
marker-stripped text "step one" the claim requires. -/
theorem pdf_numbered_marker_kept :
    (markdown_to_pdf (str "1. step one")).drawn.map DrawnLine.text = [str "1. step one"]
    ∧ (markdown_to_pdf (str "1. step one")).drawn.map DrawnLine.text ≠ [str "step one"] :=
  ⟨by decide, by decide⟩

/-- C2 (amended): every non-blank line whose stripped form matches the
digits-dot-whitespace pattern is classified as a numbered list item by
the word-processor rendering with the marker stripped, while the
paginated rendering recognizes the same pattern but draws the stripped
line unchanged (marker retained) in regular style. -/
theorem numbered_line_both_renderers (raw : List Char) (st : PdfState)
    (h : matches_numbered (stripWs raw) = true) :
    docx_classify_line raw = some (.listNumber (strip_numbered (stripWs raw)))
    ∧ pdf_render_line st raw = draw_line (stripWs raw) false st := by
  obtain ⟨d, t, hsw, hd⟩ := matches_numbered_head h
  have hempty : (stripWs raw).isEmpty = false := by rw [hsw]; rfl
  have hdash : startswith (str "-") (stripWs raw) = false := by
    rw [hsw]
    refine startswith_cons_ne ?_
    intro hc
    rw [← hc] at hd
    exact absurd hd (by decide)
  have hstar : startswith (str "*") (stripWs raw) = false := by
    rw [hsw]
    refine startswith_cons_ne ?_
    intro hc
    rw [← hc] at hd
    exact absurd hd (by decide)
  have hhashhead : ∀ t2, stripWs raw ≠ '#' :: t2 := by
    intro t2 hcon
    rw [hsw] at hcon
    injection hcon with h1 h2
    rw [h1] at hd
    exact absurd hd (by decide)
  have hh3 : startswith (str "### ") (rstripWs raw) = false :=
    not_startswith_rstrip (by decide) hhashhead
  have hh2 : startswith (str "## ") (rstripWs raw) = false :=
    not_startswith_rstrip (by decide) hhashhead
  have hh1 : startswith (str "# ") (rstripWs raw) = false :=
    not_startswith_rstrip (by decide) hhashhead
  have hhash1 : startswith (str "#") (stripWs raw) = false := by
    rw [hsw]
    refine startswith_cons_ne ?_
    intro hc
    rw [← hc] at hd
    exact absurd hd (by decide)
  constructor
  · rw [docx_classify_line_eq]
    simp [hempty, hh3, hh2, hh1, hdash, hstar, h]
  · unfold pdf_render_line
    simp [hempty, hhash1, hdash, hstar, h]

/-- C2 witness: the amended numbered-line behavior at the concrete line
"1. step one" and the initial canvas state. -/
theorem numbered_line_both_renderers_witness :
    docx_classify_line (str "1. step one")
      = some (.listNumber (strip_numbered (stripWs (str "1. step one"))))
    ∧ pdf_render_line initPdfState (str "1. step one")
      = draw_line (stripWs (str "1. step one")) false initPdfState :=
  numbered_line_both_renderers (str "1. step one") initPdfState (by decide)

/-- C3 counterexample: the line "###Title" has three leading '#'
characters, yet the word-processor rendering classifies it as a plain
paragraph with the marker kept (a space after the hashes is required),
not as the level-3 heading "Title" the claim requires; the paginated
rendering meanwhile renders it as a (level-less) heading "Title". -/
theorem heading_no_space_divergence :
    markdown_to_docx (str "###Title") = [.paragraph (str "###Title")]
    ∧ markdown_to_docx (str "###Title") ≠ [.heading 3 (str "Title")]
    ∧ (markdown_to_pdf (str "###Title")).drawn.map (fun d => (d.text, d.is_heading))
        = [(str "Title", true)] :=
  ⟨by decide, by decide, by decide⟩

/-- C3 (amended): in the word-processor rendering, a (right-stripped)
line starting with "### " yields a level-3 heading, else "## " a
level-2 heading, else "# " a level-1 heading, in that precedence, with
the marker and surrounding whitespace stripped — the hash marks must be
followed by a space.  In the paginated rendering any line whose stripped
form starts with '#' is drawn as a single bold heading style with all
leading '#' characters stripped; no level distinction exists there. -/
theorem heading_precedence_both_renderers (raw : List Char) (st : PdfState) :
    (startswith (str "### ") (rstripWs raw) = true →
       docx_classify_line raw = some (.heading 3 (stripWs ((rstripWs raw).drop 4))))
    ∧ (startswith (str "## ") (rstripWs raw) = true →
       docx_classify_line raw = some (.heading 2 (stripWs ((rstripWs raw).drop 3))))
    ∧ (startswith (str "# ") (rstripWs raw) = true →
       docx_classify_line raw = some (.heading 1 (stripWs ((rstripWs raw).drop 2))))
    ∧ (∀ t, stripWs raw = '#' :: t →
       pdf_render_line st raw = draw_line (stripWs (lstripHash (stripWs raw))) true st) := by
  have hkey : ∀ u, rstripWs raw = '#' :: u → (stripWs raw).isEmpty = false := by
    intro u hu
    have : stripWs raw = '#' :: u := by
      have hns : pyIsSpace '#' = false := by decide
      show lstripWs (rstripWs raw) = _
      rw [hu]
      simp [lstripWs, List.dropWhile_cons, hns]
    rw [this]
    rfl
  refine ⟨?_, ?_, ?_, ?_⟩
  · intro h
    obtain ⟨t, ht⟩ := startswith_iff.mp h
    have hempty := hkey _ (by rw [ht]; rfl)
    rw [docx_classify_line_eq]
    simp [hempty, h]
  · intro h
    obtain ⟨t, ht⟩ := startswith_iff.mp h
    have hempty := hkey _ (by rw [ht]; rfl)
    have hh3 : startswith (str "### ") (rstripWs raw) = false := by
      rw [ht]
      simp [startswith, List.isPrefixOf]
    rw [docx_classify_line_eq]
    simp [hempty, hh3, h]
  · intro h
    obtain ⟨t, ht⟩ := startswith_iff.mp h
    have hempty := hkey _ (by rw [ht]; rfl)
    have hh3 : startswith (str "### ") (rstripWs raw) = false := by
      rw [ht]
      simp [startswith, List.isPrefixOf]
    have hh2 : startswith (str "## ") (rstripWs raw) = false := by
      rw [ht]
      simp [startswith, List.isPrefixOf]
    rw [docx_classify_line_eq]
    simp [hempty, hh3, hh2, h]
  · intro t ht
    have hempty : (stripWs raw).isEmpty = false := by rw [ht]; rfl
    have hhash : startswith (str "#") (stripWs raw) = true := by
      rw [ht]
      simp [startswith, List.isPrefixOf]
    unfold pdf_render_line
    simp [hempty, hhash]

/-- C3 witness: the amended heading behavior at the concrete lines
"### A", "## B" and "# C" and the initial canvas state. -/
theorem heading_precedence_witness :
    docx_classify_line (str "### A") = some (.heading 3 (stripWs ((rstripWs (str "### A")).drop 4)))
    ∧ docx_classify_line (str "## B") = some (.heading 2 (stripWs ((rstripWs (str "## B")).drop 3)))
    ∧ docx_classify_line (str "# C") = some (.heading 1 (stripWs ((rstripWs (str "# C")).drop 2)))
    ∧ pdf_render_line initPdfState (str "# C")
        = draw_line (stripWs (lstripHash (stripWs (str "# C")))) true initPdfState :=
  ⟨(heading_precedence_both_renderers (str "### A") initPdfState).1 (by decide),
   (heading_precedence_both_renderers (str "## B") initPdfState).2.1 (by decide),
   (heading_precedence_both_renderers (str "# C") initPdfState).2.2.1 (by decide),
   (heading_precedence_both_renderers (str "# C") initPdfState).2.2.2 (str " C") (by decide)⟩

/-! ## Except and mapM helper lemmas -/

theorem except_bind_ok {ε α β : Type} (a : α) (f : α → Except ε β) :
    ((Except.ok a : Except ε α) >>= f) = f a := rfl

theorem except_bind_error {ε α β : Type} (e : ε) (f : α → Except ε β) :
    ((Except.error e : Except ε α) >>= f) = .error e := rfl

theorem except_map_ok {ε α β : Type} (a : α) (f : α → β) :
    ((Except.ok a : Except ε α).map f) = .ok (f a) := rfl

theorem except_map_error {ε α β : Type} (e : ε) (f : α → β) :
    ((Except.error e : Except ε α).map f) = .error e := rfl

theorem mapM_ok_of_forall {α β : Type} {f : α → Except HTTPErr β} {g : α → β} :
    ∀ {l : List α}, (∀ x ∈ l, f x = .ok (g x)) → l.mapM f = .ok (l.map g) := by
  intro l
  induction l with
  | nil => intro _; rfl
  | cons a l ih =>
    intro h
    rw [List.mapM_cons, h a (List.mem_cons_self a l), except_bind_ok,
      ih (fun x hx => h x (List.mem_cons_of_mem a hx)), except_bind_ok]
    rfl

theorem mapM_error_first {α β : Type} {f : α → Except HTTPErr β} {g : α → β}
    {x : α} {e : HTTPErr} (hx : f x = .error e) :
    ∀ (pre : List α), (∀ y ∈ pre, f y = .ok (g y)) →
      ∀ (post : List α), (pre ++ x :: post).mapM f = .error e := by
  intro pre
  induction pre with
  | nil =>
    intro _ post
    rw [List.nil_append, List.mapM_cons, hx, except_bind_error]
  | cons p pre ih =>
    intro h post
    rw [List.cons_append, List.mapM_cons, h p (List.mem_cons_self p pre), except_bind_ok,
      ih (fun y hy => h y (List.mem_cons_of_mem p hy)) post, except_bind_error]

/-! ## Suffix-dispatch lemmas for `extract_text` -/

theorem endswith_append (p q : List Char) : endswith q (p ++ q) = true :=
  endswith_iff.mpr (List.suffix_append p q)

theorem endswith_conflict {a b s : List Char}
    (ha : endswith a s = true) (hb : endswith b s = true) : a <:+ b ∨ b <:+ a :=
  List.suffix_or_suffix_of_suffix (endswith_iff.mp ha) (endswith_iff.mp hb)

theorem extract_text_pdf_branch {env : ExtractEnv} {fname : List Char} {data : List Nat}
    (h : endswith (str ".pdf") (pyLower fname) = true) :
    extract_text env fname data = env.pdfExtract data := by
  unfold extract_text
  simp [h]

theorem extract_text_docx_branch {env : ExtractEnv} {fname : List Char} {data : List Nat}
    (h : endswith (str ".docx") (pyLower fname) = true) :
    extract_text env fname data = env.docxExtract data := by
  have hpdf : endswith (str ".pdf") (pyLower fname) = false := by
    by_contra hc
    rw [Bool.not_eq_false] at hc
    rcases endswith_conflict hc h with h1 | h1
    · exact absurd h1 (by decide)
    · exact absurd h1 (by decide)
  unfold extract_text
  simp [hpdf, h]

theorem extract_text_pptx_branch {env : ExtractEnv} {fname : List Char} {data : List Nat}
    (h : endswith (str ".pptx") (pyLower fname) = true) :
    extract_text env fname data = env.pptxExtract data := by
  have hpdf : endswith (str ".pdf") (pyLower fname) = false := by
    by_contra hc
    rw [Bool.not_eq_false] at hc
    rcases endswith_conflict hc h with h1 | h1
    · exact absurd h1 (by decide)
    · exact absurd h1 (by decide)
  have hdocx : endswith (str ".docx") (pyLower fname) = false := by
    by_contra hc
    rw [Bool.not_eq_false] at hc
    rcases endswith_conflict hc h with h1 | h1
    · exact absurd h1 (by decide)
    · exact absurd h1 (by decide)
  unfold extract_text
  simp [hpdf, hdocx, h]

theorem extract_text_txt_branch {env : ExtractEnv} {fname : List Char} {data : List Nat}
    (h : endswith (str ".txt") (pyLower fname) = true) :
    extract_text env fname data = .ok (stripWs (utf8decode data)) := by
  have hpdf : endswith (str ".pdf") (pyLower fname) = false := by
    by_contra hc
    rw [Bool.not_eq_false] at hc
    rcases endswith_conflict hc h with h1 | h1
    · exact absurd h1 (by decide)
    · exact absurd h1 (by decide)
  have hdocx : endswith (str ".docx") (pyLower fname) = false := by
    by_contra hc
    rw [Bool.not_eq_false] at hc
    rcases endswith_conflict hc h with h1 | h1
    · exact absurd h1 (by decide)
    · exact absurd h1 (by decide)
  have hpptx : endswith (str ".pptx") (pyLower fname) = false := by
    by_contra hc
    rw [Bool.not_eq_false] at hc
    rcases endswith_conflict hc h with h1 | h1
    · exact absurd h1 (by decide)
    · exact absurd h1 (by decide)
  unfold extract_text
  simp [hpdf, hdocx, hpptx, h]

theorem extract_text_md_branch {env : ExtractEnv} {fname : List Char} {data : List Nat}
    (h : endswith (str ".md") (pyLower fname) = true) :
    extract_text env fname data = .ok (stripWs (utf8decode data)) := by
  have hpdf : endswith (str ".pdf") (pyLower fname) = false := by
    by_contra hc
    rw [Bool.not_eq_false] at hc
    rcases endswith_conflict hc h with h1 | h1
    · exact absurd h1 (by decide)
    · exact absurd h1 (by decide)
  have hdocx : endswith (str ".docx") (pyLower fname) = false := by
    by_contra hc
    rw [Bool.not_eq_false] at hc
    rcases endswith_conflict hc h with h1 | h1
    · exact absurd h1 (by decide)
    · exact absurd h1 (by decide)
  have hpptx : endswith (str ".pptx") (pyLower fname) = false := by
    by_contra hc
    rw [Bool.not_eq_false] at hc
    rcases endswith_conflict hc h with h1 | h1
    · exact absurd h1 (by decide)
    · exact absurd h1 (by decide)
  unfold extract_text
  simp [hpdf, hdocx, hpptx, h]

theorem extract_text_unsupported {env : ExtractEnv} {fname : List Char} {data : List Nat}
    (h : supported_suffix fname = false) :
    extract_text env fname data
      = .error { status := 400, detail := str "Unsupported file type: " ++ fname } := by
  unfold supported_suffix at h
  simp only [Bool.or_eq_false_iff] at h
  obtain ⟨⟨⟨⟨h1, h2⟩, h3⟩, h4⟩, h5⟩ := h
  unfold extract_text
  simp [h1, h2, h3, h4, h5]

theorem extracted_block_ok {env : ExtractEnv} {fname : List Char} {data : List Nat}
    (h : (extract_text env fname data).isOk = true) :
    extracted_block env fname data = .ok (block_of env (fname, data)) := by
  unfold extracted_block block_of
  cases he : extract_text env fname data with
  | error e =>
    rw [he] at h
    cases h
  | ok t => rfl

/-! ## Pipeline stage lemmas -/

theorem read_files_ok {maxMB : Nat} {files : List Upload}
    (h : ∀ f ∈ files, f.data.length ≤ maxMB * 1024 * 1024) :
    read_files maxMB files = .ok (files.map (fun f => (_safe_filename f.filename, f.data))) := by
  unfold read_files
  refine mapM_ok_of_forall ?_
  intro f hf
  have hle := h f hf
  unfold _read_uploadfile
  rw [if_neg (by omega)]
  rfl

theorem read_files_error {maxMB : Nat} {files : List Upload} {f0 : Upload}
    (hfind : files.find? (fun f => decide (maxMB * 1024 * 1024 < f.data.length)) = some f0) :
    read_files maxMB files
      = .error { status := 413,
                 detail := f0.filename ++ str " too large (> " ++ natStr maxMB ++ str "MB)" } := by
  obtain ⟨hp0, as, bs, hsplit, hpre⟩ := List.find?_eq_some.mp hfind
  rw [hsplit]
  unfold read_files
  refine mapM_error_first (g := fun f => (_safe_filename f.filename, f.data)) ?_ as ?_ bs
  · unfold _read_uploadfile
    rw [if_pos (of_decide_eq_true hp0)]
    rfl
  · intro y hy
    have hle : ¬ (maxMB * 1024 * 1024 < y.data.length) := by
      have := hpre y hy
      simpa using this
    unfold _read_uploadfile
    rw [if_neg (by omega)]
    rfl

theorem bytes_limit_check_ok {maxTotal : Nat} {files : List Upload}
    (htot : (files.map (fun f => f.data.length)).sum ≤ maxTotal * 1024 * 1024) :
    _bytes_limit_check maxTotal (files.map (fun f => (_safe_filename f.filename, f.data)))
      = .ok () := by
  unfold _bytes_limit_check
  rw [if_neg]
  simp only [List.map_map]
  have hsame : (files.map ((fun fb : List Char × List Nat => fb.2.length)
      ∘ fun f => (_safe_filename f.filename, f.data))) = files.map (fun f => f.data.length) := by
    simp [Function.comp]
  rw [hsame]
  omega

theorem bytes_limit_check_over {maxTotal : Nat} {files : List Upload}
    (htot : maxTotal * 1024 * 1024 < (files.map (fun f => f.data.length)).sum) :
    _bytes_limit_check maxTotal (files.map (fun f => (_safe_filename f.filename, f.data)))
      = .error { status := 413,
                 detail := str "Total upload too large (> " ++ natStr maxTotal ++ str "MB)" } := by
  unfold _bytes_limit_check
  rw [if_pos]
  simp only [List.map_map]
  have hsame : (files.map ((fun fb : List Char × List Nat => fb.2.length)
      ∘ fun f => (_safe_filename f.filename, f.data))) = files.map (fun f => f.data.length) := by
    simp [Function.comp]
  rw [hsame]
  omega

/-! ## The SourceBundle claims -/

/-- C5 counterexample: for the plain-text file "a.txt" whose bytes
decode to "hello\n", the labeled block carries the trimmed content
"hello" — not the file's decoded content "hello\n" as the claim, read
literally, requires. -/
theorem txt_block_content_is_trimmed :
    extracted_block envOk (str "a.txt") [104, 101, 108, 108, 111, 10]
      = .ok (str "=== File: a.txt ===\nhello")
    ∧ utf8decode [104, 101, 108, 108, 111, 10] = str "hello\n"
    ∧ (str "=== File: a.txt ===\n" ++ utf8decode [104, 101, 108, 108, 111, 10])
        ≠ str "=== File: a.txt ===\nhello" :=
  ⟨by decide, by decide, by decide⟩

/-- C5 (amended): the SourceBundle contains exactly one labeled block
per uploaded file, in upload order, whenever every extraction succeeds;
for a plain-text (".txt") file the block's content is the file's
UTF-8-decoded content trimmed of surrounding whitespace; and when an
extractor yields an empty string the block's content is the literal
placeholder "No extractable text found." rather than the file being
omitted. -/
theorem source_bundle_blocks (env : ExtractEnv) (files_bytes : List (List Char × List Nat))
    (h : ∀ fb ∈ files_bytes, (extract_text env fb.1 fb.2).isOk = true) :
    source_bundle env files_bytes
      = .ok (joinWith (str "\n\n") (files_bytes.map (block_of env)))
    ∧ (files_bytes.map (block_of env)).length = files_bytes.length
    ∧ (∀ fname data, endswith (str ".txt") (pyLower fname) = true →
        extracted_block env fname data
          = .ok (str "=== File: " ++ fname ++ str " ===\n"
              ++ (if (stripWs (utf8decode data)).isEmpty then placeholder
                  else stripWs (utf8decode data))))
    ∧ (∀ fname data, extract_text env fname data = .ok [] →
        extracted_block env fname data
          = .ok (str "=== File: " ++ fname ++ str " ===\n" ++ placeholder)) := by
  refine ⟨?_, List.length_map _ _, ?_, ?_⟩
  · unfold source_bundle
    rw [mapM_ok_of_forall (g := block_of env) (fun fb hfb => extracted_block_ok (h fb hfb))]
    rfl
  · intro fname data hend
    unfold extracted_block
    rw [extract_text_txt_branch hend]
    rfl
  · intro fname data hok
    unfold extracted_block
    rw [hok]
    rfl

/-- C5 witness: the amended SourceBundle shape at one concrete
plain-text file. -/
theorem source_bundle_blocks_witness :
    source_bundle envOk [(str "a.txt", [104, 105])]
      = .ok (joinWith (str "\n\n") ([(str "a.txt", [104, 105])].map (block_of envOk))) :=
  (source_bundle_blocks envOk [(str "a.txt", [104, 105])] (by decide)).1

/-! ## The error-path claims -/

/-- C6: when some uploaded file's (sanitized, lowercased) name has a
suffix other than pdf/docx/pptx/txt/md — and the request passes the
earlier secret, count and size checks, and the supported files extract
without error — the request fails with a 400 unsupported-type error
naming the first such file, and the completion-service call point is
never reached. -/
theorem unsupported_type_rejected_before_ai (cfg : Config) (header : Option (List Char))
    (env : ExtractEnv) (files : List Upload) (resp : Option (List Char)) (f0 : Upload)
    (hsec : _require_secret cfg.sharedSecret header = .ok ())
    (hne : files.isEmpty = false)
    (hcount : files.length ≤ cfg.maxFiles)
    (hsize : ∀ f ∈ files, f.data.length ≤ cfg.maxMBPerFile * 1024 * 1024)
    (htot : (files.map (fun f => f.data.length)).sum ≤ cfg.maxTotalMB * 1024 * 1024)
    (hgood : ∀ f ∈ files, supported_suffix (_safe_filename f.filename) = true →
      (extract_text env (_safe_filename f.filename) f.data).isOk = true)
    (hfind : files.find? (fun f => !supported_suffix (_safe_filename f.filename)) = some f0) :
    make_notes cfg header env files resp
      = (.error { status := 400,
                  detail := str "Unsupported file type: " ++ _safe_filename f0.filename },
         false) := by
  obtain ⟨hp0, as, bs, hsplit, hpre⟩ := List.find?_eq_some.mp hfind
  have hp0' : supported_suffix (_safe_filename f0.filename) = false := by
    simpa using hp0
  have hsb : source_bundle env (files.map (fun f => (_safe_filename f.filename, f.data)))
      = .error { status := 400,
                 detail := str "Unsupported file type: " ++ _safe_filename f0.filename } := by
    unfold source_bundle
    rw [hsplit, List.map_append, List.map_cons]
    rw [mapM_error_first (g := block_of env) ?hx (as.map fun f => (_safe_filename f.filename, f.data)) ?hpre (bs.map fun f => (_safe_filename f.filename, f.data))]
    · rfl
    case hx =>
      unfold extracted_block
      rw [extract_text_unsupported hp0']
      rfl
    case hpre =>
      intro y hy
      obtain ⟨a, ha, rfl⟩ := List.mem_map.mp hy
      have ha2 : a ∈ files := by
        rw [hsplit]
        exact List.mem_append.mpr (Or.inl ha)
      have hsup : supported_suffix (_safe_filename a.filename) = true := by
        have := hpre a ha
        simpa using this
      exact extracted_block_ok (hgood a ha2 hsup)
  have hc2 : ¬ (files.length > cfg.maxFiles) := by omega
  unfold make_notes
  rw [hsec, hne]
  simp only [Bool.false_eq_true, if_false, hc2, if_false,
    read_files_ok hsize, bytes_limit_check_ok htot, hsb]

/-- C6 witness: the unsupported-suffix rejection at one concrete
request containing only the file "a.xyz". -/
theorem unsupported_type_rejected_witness :
    make_notes { maxFiles := 10, maxMBPerFile := 25, maxTotalMB := 50,
                 api_key_set := true, sharedSecret := [] }
        none envOk [{ filename := str "a.xyz", data := [65] }] (some (str "notes"))
      = (.error { status := 400,
                  detail := str "Unsupported file type: "
                    ++ _safe_filename (str "a.xyz") }, false) :=
  unsupported_type_rejected_before_ai _ none envOk _ _ { filename := str "a.xyz", data := [65] }
    (by decide) (by decide) (by decide) (by decide) (by decide) (by decide) (by decide)

/-- C7: when the completion service's reply is empty or
whitespace-only (and the API key is configured), `call_ai_make_notes`
fails with the upstream 500 error "AI returned empty notes" — distinct
from the placeholder treatment of a normal empty extraction — and
`make_notes` never returns an archive, whatever the uploaded files. -/
theorem empty_ai_response_fails (cfg : Config) (header : Option (List Char))
    (env : ExtractEnv) (files : List Upload) (resp : Option (List Char))
    (hk : cfg.api_key_set = true)
    (hr : (stripWs (resp.getD [])).isEmpty = true) :
    call_ai_make_notes cfg.api_key_set resp
      = .error { status := 500, detail := str "AI returned empty notes" }
    ∧ (make_notes cfg header env files resp).1.isOk = false := by
  have hcall : call_ai_make_notes cfg.api_key_set resp
      = .error { status := 500, detail := str "AI returned empty notes" } := by
    unfold call_ai_make_notes
    rw [hk]
    simp [hr]
  refine ⟨hcall, ?_⟩
  cases hs : _require_secret cfg.sharedSecret header with
  | error e => simp [make_notes, hs, Except.isOk, Except.toBool]
  | ok u =>
    by_cases h1 : files.isEmpty
    · simp [make_notes, hs, h1, Except.isOk, Except.toBool]
    · by_cases h2 : files.length > cfg.maxFiles
      · simp [make_notes, hs, h1, h2, Except.isOk, Except.toBool]
      · cases hr3 : read_files cfg.maxMBPerFile files with
        | error e => simp [make_notes, hs, h1, h2, hr3, Except.isOk, Except.toBool]
        | ok fb =>
          cases hb : _bytes_limit_check cfg.maxTotalMB fb with
          | error e => simp [make_notes, hs, h1, h2, hr3, hb, Except.isOk, Except.toBool]
          | ok u2 =>
            cases hsb : source_bundle env fb with
            | error e =>
              simp [make_notes, hs, h1, h2, hr3, hb, hsb, Except.isOk, Except.toBool]
            | ok st =>
              simp [make_notes, hs, h1, h2, hr3, hb, hsb, hcall, Except.isOk, Except.toBool]

/-- C7 witness: the empty-reply failure at one concrete request with a
whitespace-only completion reply. -/
theorem empty_ai_response_fails_witness :
    call_ai_make_notes true (some (str " \n "))
      = .error { status := 500, detail := str "AI returned empty notes" }
    ∧ (make_notes { maxFiles := 10, maxMBPerFile := 25, maxTotalMB := 50,
                    api_key_set := true, sharedSecret := [] }
        none envOk [{ filename := str "a.txt", data := [65] }]
        (some (str " \n "))).1.isOk = false :=
  empty_ai_response_fails
    { maxFiles := 10, maxMBPerFile := 25, maxTotalMB := 50,
      api_key_set := true, sharedSecret := [] }
    none envOk [{ filename := str "a.txt", data := [65] }] (some (str " \n "))
    (by decide) (by decide)

/-- C8: a single uploaded file over the per-file byte limit makes the
request fail with a 413 naming that file (the first such file, via its
original filename); files each within the per-file limit whose total
size exceeds the aggregate limit make the request fail with the
aggregate 413 error.  In both cases the completion service is never
called. -/
theorem size_limits_enforced :
    (∀ (cfg : Config) (header : Option (List Char)) (env : ExtractEnv)
        (files : List Upload) (resp : Option (List Char)) (f0 : Upload),
      _require_secret cfg.sharedSecret header = .ok () →
      files.isEmpty = false →
      files.length ≤ cfg.maxFiles →
      files.find? (fun f => decide (cfg.maxMBPerFile * 1024 * 1024 < f.data.length)) = some f0 →
      make_notes cfg header env files resp
        = (.error { status := 413,
                    detail := f0.filename ++ str " too large (> "
                      ++ natStr cfg.maxMBPerFile ++ str "MB)" }, false))
    ∧ (∀ (cfg : Config) (header : Option (List Char)) (env : ExtractEnv)
        (files : List Upload) (resp : Option (List Char)),
      _require_secret cfg.sharedSecret header = .ok () →
      files.isEmpty = false →
      files.length ≤ cfg.maxFiles →
      (∀ f ∈ files, f.data.length ≤ cfg.maxMBPerFile * 1024 * 1024) →
      cfg.maxTotalMB * 1024 * 1024 < (files.map (fun f => f.data.length)).sum →
      make_notes cfg header env files resp
        = (.error { status := 413,
                    detail := str "Total upload too large (> "
                      ++ natStr cfg.maxTotalMB ++ str "MB)" }, false)) := by
  constructor
  · intro cfg header env files resp f0 hsec hne hcount hfind
    have hc2 : ¬ (files.length > cfg.maxFiles) := by omega
    unfold make_notes
    rw [hsec, hne]
    simp only [Bool.false_eq_true, if_false, hc2, read_files_error hfind]
  · intro cfg header env files resp hsec hne hcount hsize htot
    have hc2 : ¬ (files.length > cfg.maxFiles) := by omega
    unfold make_notes
    rw [hsec, hne]
    simp only [Bool.false_eq_true, if_false, hc2,
      read_files_ok hsize, bytes_limit_check_over htot]

/-- C8 witness: both size rejections at concrete requests (a single
2-byte file against a 0 MB per-file limit; a 1-byte file against a 0 MB
aggregate limit). -/
theorem size_limits_enforced_witness :
    make_notes { maxFiles := 10, maxMBPerFile := 0, maxTotalMB := 50,
                 api_key_set := true, sharedSecret := [] }
        none envOk [{ filename := str "big.txt", data := [65, 66] }] (some (str "notes"))
      = (.error { status := 413,
                  detail := str "big.txt" ++ str " too large (> " ++ natStr 0 ++ str "MB)" },
         false)
    ∧ make_notes { maxFiles := 10, maxMBPerFile := 25, maxTotalMB := 0,
                   api_key_set := true, sharedSecret := [] }
        none envOk [{ filename := str "a.txt", data := [65] }] (some (str "notes"))
      = (.error { status := 413,
                  detail := str "Total upload too large (> " ++ natStr 0 ++ str "MB)" },
         false) :=
  ⟨size_limits_enforced.1
     { maxFiles := 10, maxMBPerFile := 0, maxTotalMB := 50,
       api_key_set := true, sharedSecret := [] }
     none envOk [{ filename := str "big.txt", data := [65, 66] }] (some (str "notes"))
     { filename := str "big.txt", data := [65, 66] }
     (by decide) (by decide) (by decide) (by decide),
   size_limits_enforced.2
     { maxFiles := 10, maxMBPerFile := 25, maxTotalMB := 0,
       api_key_set := true, sharedSecret := [] }
     none envOk [{ filename := str "a.txt", data := [65] }] (some (str "notes"))
     (by decide) (by decide) (by decide) (by decide) (by decide)⟩

/-! ## The suffix case-insensitivity claim -/

/-- C10: `extract_text` lowercases the filename before matching its
suffix, so a filename ending in any case variant of .pdf, .docx, .pptx,
.txt or .md dispatches to the corresponding format-specific extractor
and never hits the unsupported-type error. -/
theorem suffix_match_case_insensitive (env : ExtractEnv) (data : List Nat)
    (base ext : List Char) :
    (pyLower ext = str ".pdf" → extract_text env (base ++ ext) data = env.pdfExtract data)
    ∧ (pyLower ext = str ".docx" → extract_text env (base ++ ext) data = env.docxExtract data)
    ∧ (pyLower ext = str ".pptx" → extract_text env (base ++ ext) data = env.pptxExtract data)
    ∧ ((pyLower ext = str ".txt" ∨ pyLower ext = str ".md") →
        extract_text env (base ++ ext) data = .ok (stripWs (utf8decode data))) := by
  have hl : pyLower (base ++ ext) = pyLower base ++ pyLower ext := List.map_append _ _ _
  refine ⟨?_, ?_, ?_, ?_⟩
  · intro h
    refine extract_text_pdf_branch ?_
    rw [hl, h]
    exact endswith_append _ _
  · intro h
    refine extract_text_docx_branch ?_
    rw [hl, h]
    exact endswith_append _ _
  · intro h
    refine extract_text_pptx_branch ?_
    rw [hl, h]
    exact endswith_append _ _
  · rintro (h | h)
    · refine extract_text_txt_branch ?_
      rw [hl, h]
      exact endswith_append _ _
    · refine extract_text_md_branch ?_
      rw [hl, h]
      exact endswith_append _ _

/-- C10 witness: mixed-case suffixes dispatched at concrete inputs. -/
theorem suffix_match_case_insensitive_witness :
    extract_text envOk (str "A" ++ str ".PDF") [65] = envOk.pdfExtract [65]
    ∧ extract_text envOk (str "b" ++ str ".DocX") [65] = envOk.docxExtract [65]
    ∧ extract_text envOk (str "c" ++ str ".PpTx") [65] = envOk.pptxExtract [65]
    ∧ extract_text envOk (str "d" ++ str ".TXT") [65] = .ok (stripWs (utf8decode [65])) :=
  ⟨(suffix_match_case_insensitive envOk [65] (str "A") (str ".PDF")).1 (by decide),
   (suffix_match_case_insensitive envOk [65] (str "b") (str ".DocX")).2.1 (by decide),
   (suffix_match_case_insensitive envOk [65] (str "c") (str ".PpTx")).2.2.1 (by decide),
   (suffix_match_case_insensitive envOk [65] (str "d") (str ".TXT")).2.2.2 (Or.inl (by decide))⟩

end LectureNotes
